import Mathlib

/-!
Verification of the tab-automation engine of the `tab-flow-chrome` extension
(`src/background.ts`, `src/utils/storage.ts`) against its specification.

JavaScript strings are modelled as `List Char`; the pieces of the host
environment the engine calls into (`String.prototype.toLowerCase`,
`new RegExp(...).test`, `new URL(...).hostname`) are collected in an explicit
`JsEnv` record, since their internals are outside the translated code.
A JavaScript exception escaping a function is modelled as `Except.error ()`.
Side effects on the Tab Backend and the Persistent Store are reified as a
list of `Effect` values in the order the code issues them.
-/

namespace TabFlow

/-- Equality of reified call results is decidable, so concrete runs can be
checked by evaluation. -/
instance {ε α : Type} [DecidableEq ε] [DecidableEq α] : DecidableEq (Except ε α) := fun a b =>
  match a, b with
  | .error e, .error f => decidable_of_iff (e = f) (by simp)
  | .ok x, .ok y => decidable_of_iff (x = y) (by simp)
  | .error _, .ok _ => isFalse (by simp)
  | .ok _, .error _ => isFalse (by simp)

/-- A JavaScript string, modelled as its list of characters. -/
abbrev Str := List Char

/-- Literal JavaScript string. -/
def str (s : String) : Str := s.toList

/-- JavaScript truthiness of an optional string: `undefined` and `''` are falsy. -/
def jsTruthyStr : Option Str → Bool
  | none => false
  | some s => !s.isEmpty

/-- JavaScript truthiness of an optional number used as a tab/group id:
`undefined` and `0` are falsy. -/
def jsTruthyNat : Option Nat → Bool
  | none => false
  | some n => decide (n ≠ 0)

/-- The host JavaScript capabilities used by the engine.
`toLower` models `String.prototype.toLowerCase`; `regexCompile pat ignoreCase`
models `new RegExp(pat, ignoreCase ? 'i' : '')`, returning `none` when the
constructor throws a `SyntaxError` and otherwise the compiled `test` predicate;
`urlHost u` models `new URL(u).hostname`, returning `none` when the constructor
throws a `TypeError` on an unparseable URL. -/
structure JsEnv where
  toLower : Str → Str
  regexCompile : Str → Bool → Option (Str → Bool)
  urlHost : Str → Option Str

/-- ASCII lower-casing, the behavior of `toLowerCase` on the ASCII strings used
in the concrete instances below. -/
def toLowerAscii (s : Str) : Str := s.map Char.toLower

/-- A concrete regex capability for the concrete instances below: it rejects
the single malformed pattern `"["` (as `new RegExp("[")` does, throwing
`SyntaxError: Invalid regular expression`) and compiles any other pattern to a
literal substring test, which agrees with JavaScript on the literal patterns
used in the witnesses. -/
def regexAsciiLit (pat : Str) (ignoreCase : Bool) : Option (Str → Bool) :=
  if pat = str "[" then none
  else some (fun text =>
    if ignoreCase then decide (toLowerAscii pat <:+: toLowerAscii text)
    else decide (pat <:+: text))

/-- A concrete URL-host capability for the concrete instances below: it
accepts exactly the strings starting with `"https://"` and extracts the
authority up to the first `'/'`, which agrees with `new URL(u).hostname` on
the plain host-only https URLs used in the witnesses; every other string is
rejected, as `new URL("notaurl")` throws a `TypeError`. -/
def urlHostHttps (u : Str) : Option Str :=
  if str "https://" <+: u then some ((u.drop 8).takeWhile (fun c => c ≠ '/'))
  else none

/-- The concrete host environment used by witnesses and counterexamples. -/
def jsEnv0 : JsEnv :=
  { toLower := toLowerAscii
    regexCompile := regexAsciiLit
    urlHost := urlHostHttps }

/-- Shallow embedding of `matchesPattern` (src/background.ts:499-517).
The `matches` arm calls `new RegExp(pattern, caseSensitive ? '' : 'i')` with
no surrounding try/catch, so a failed compilation is a thrown exception
(`Except.error ()`) escaping the function; the compiled regex is tested
against the un-lowered `text`. All other arms compare after lower-casing
both sides unless `caseSensitive` is true, and an unknown operator falls
through the switch to `return false`. -/
def matchesPattern (env : JsEnv) (text : Str) (operator : String) (pattern : Str)
    (caseSensitive : Bool) : Except Unit Bool :=
  let compareText := if caseSensitive then text else env.toLower text
  let comparePattern := if caseSensitive then pattern else env.toLower pattern
  if operator = "contains" then .ok (decide (comparePattern <:+: compareText))
  else if operator = "equals" then .ok (decide (compareText = comparePattern))
  else if operator = "matches" then
    match env.regexCompile pattern (!caseSensitive) with
    | none => .error ()
    | some test => .ok (test text)
  else if operator = "starts_with" then .ok (decide (comparePattern <+: compareText))
  else if operator = "ends_with" then .ok (decide (comparePattern <:+ compareText))
  else .ok false

/-- C1: with `caseSensitive = false`, `contains` is the substring test on the
lower-cased strings, `equals` is equality of the lower-cased strings,
`starts_with`/`ends_with` test the lower-cased pattern against the ends of the
lower-cased text, and any operator outside the five known ones yields
`.ok false` — a returned `false`, not a thrown exception. -/
theorem matchesPattern_caseInsensitive_spec (env : JsEnv) (text pattern : Str) :
    matchesPattern env text "contains" pattern false
      = .ok (decide (env.toLower pattern <:+: env.toLower text))
    ∧ matchesPattern env text "equals" pattern false
      = .ok (decide (env.toLower text = env.toLower pattern))
    ∧ matchesPattern env text "starts_with" pattern false
      = .ok (decide (env.toLower pattern <+: env.toLower text))
    ∧ matchesPattern env text "ends_with" pattern false
      = .ok (decide (env.toLower pattern <:+ env.toLower text))
    ∧ ∀ op : String,
        op ∉ (["contains", "equals", "matches", "starts_with", "ends_with"] : List String) →
        ∀ cs : Bool, matchesPattern env text op pattern cs = .ok false := by
  refine ⟨by simp [matchesPattern], by simp [matchesPattern], by simp [matchesPattern],
    by simp [matchesPattern], ?_⟩
  intro op hop cs
  simp only [List.mem_cons, List.not_mem_nil, or_false, not_or] at hop
  obtain ⟨h1, h2, h3, h4, h5⟩ := hop
  simp [matchesPattern, h1, h2, h3, h4, h5]

/-- Witness for C1 at concrete inputs in the concrete host environment. -/
theorem matchesPattern_caseInsensitive_witness :
    matchesPattern jsEnv0 (str "GitHub.Com/Page") "contains" (str "hub.c") false = .ok true
    ∧ matchesPattern jsEnv0 (str "News") "equals" (str "nEWS") false = .ok true
    ∧ matchesPattern jsEnv0 (str "News") "starts_with" (str "neW") false = .ok true
    ∧ matchesPattern jsEnv0 (str "News") "ends_with" (str "WS") false = .ok true
    ∧ matchesPattern jsEnv0 (str "News") "frobnicate" (str "News") false = .ok false := by
  obtain ⟨h1, h2, h3, h4, h5⟩ :=
    matchesPattern_caseInsensitive_spec jsEnv0 (str "News") (str "nEWS")
  refine ⟨?_, ?_, ?_, ?_, ?_⟩
  · exact (matchesPattern_caseInsensitive_spec jsEnv0 (str "GitHub.Com/Page") (str "hub.c")).1.trans
      (by decide)
  · exact h2.trans (by decide)
  · exact ((matchesPattern_caseInsensitive_spec jsEnv0 (str "News") (str "neW")).2.2.1).trans
      (by decide)
  · exact ((matchesPattern_caseInsensitive_spec jsEnv0 (str "News") (str "WS")).2.2.2.1).trans
      (by decide)
  · exact (matchesPattern_caseInsensitive_spec jsEnv0 (str "News") (str "News")).2.2.2.2
      "frobnicate" (by decide) false

/-- The condition types of `RuleCondition` (src/types/index.ts:40-45). The
evaluator's switch handles only `url`, `title` and `domain`; `time` and
`duplicate` fall through with `matches` left `false`. -/
inductive CondType
  | url | title | domain | time | duplicate
deriving DecidableEq

/-- Model of `RuleCondition` (src/types/index.ts:40-45): the operator is a
plain string at the `matchesPattern` boundary, and `caseSensitive` is
optional (`undefined` is falsy). -/
structure RuleCondition where
  type : CondType
  operator : String
  value : Str
  caseSensitive : Option Bool
deriving DecidableEq

/-- The `conditionOperator` of a rule (src/types/index.ts:33). -/
inductive CondOperator
  | AND | OR
deriving DecidableEq

/-- The fields of a `chrome.tabs.Tab` snapshot that the engine reads.
`id`, `url`, `title` and `favIconUrl` are optional in the Chrome API. -/
structure Tab where
  id : Option Nat
  url : Option Str
  title : Option Str
  favIconUrl : Option Str
  pinned : Bool
  active : Bool
  discarded : Bool
deriving DecidableEq

/-- The switch body shared by both loops of `matchesConditions`
(src/background.ts:458-469 and 479-490). The `url`/`title` arms feed
`tab.url || ''` / `tab.title || ''` to `matchesPattern`; the `domain` arm
evaluates `tab.url ? new URL(tab.url).hostname : ''`, where `new URL` throws
(`Except.error ()`) on an unparseable URL, with no surrounding try/catch;
other condition types leave `matches = false`. -/
def matchesCondition (env : JsEnv) (tab : Tab) (c : RuleCondition) : Except Unit Bool :=
  match c.type with
  | .url => matchesPattern env (tab.url.getD []) c.operator c.value (c.caseSensitive.getD false)
  | .title => matchesPattern env (tab.title.getD []) c.operator c.value (c.caseSensitive.getD false)
  | .domain =>
    if jsTruthyStr tab.url then
      match env.urlHost (tab.url.getD []) with
      | none => .error ()
      | some host => matchesPattern env host c.operator c.value (c.caseSensitive.getD false)
    else matchesPattern env [] c.operator c.value (c.caseSensitive.getD false)
  | _ => .ok false

/-- The OR loop of `matchesConditions` (src/background.ts:453-473): return
true on the first matching condition, false when none matched. -/
def orConditionLoop (env : JsEnv) (tab : Tab) : List RuleCondition → Except Unit Bool
  | [] => .ok false
  | c :: rest =>
    match matchesCondition env tab c with
    | .error e => .error e
    | .ok m => if m then .ok true else orConditionLoop env tab rest

/-- The AND loop of `matchesConditions` (src/background.ts:474-494): return
false on the first non-matching condition, true when all matched. -/
def andConditionLoop (env : JsEnv) (tab : Tab) : List RuleCondition → Except Unit Bool
  | [] => .ok true
  | c :: rest =>
    match matchesCondition env tab c with
    | .error e => .error e
    | .ok m => if m then andConditionLoop env tab rest else .ok false

/-- Shallow embedding of `matchesConditions` (src/background.ts:449-496):
`const logicOperator = operator || 'AND'` (an absent operator defaults to
AND), then the OR or the AND loop. -/
def matchesConditions (env : JsEnv) (tab : Tab) (conditions : List RuleCondition)
    (operator : Option CondOperator) : Except Unit Bool :=
  match operator.getD .AND with
  | .OR => orConditionLoop env tab conditions
  | .AND => andConditionLoop env tab conditions

theorem andConditionLoop_ok_true (env : JsEnv) (tab : Tab) (conditions : List RuleCondition) :
    andConditionLoop env tab conditions = .ok true ↔
      ∀ c ∈ conditions, matchesCondition env tab c = .ok true := by
  induction conditions with
  | nil => simp [andConditionLoop]
  | cons c rest ih =>
    simp only [andConditionLoop, List.mem_cons]
    cases h : matchesCondition env tab c with
    | error e => simp [h]
    | ok m =>
      cases m with
      | true => simp [h, ih]
      | false => simp [h]

theorem orConditionLoop_ok_true (env : JsEnv) (tab : Tab) (conditions : List RuleCondition)
    (hok : ∀ c ∈ conditions, (matchesCondition env tab c).isOk = true) :
    orConditionLoop env tab conditions = .ok true ↔
      ∃ c ∈ conditions, matchesCondition env tab c = .ok true := by
  induction conditions with
  | nil => simp [orConditionLoop]
  | cons c rest ih =>
    have hc := hok c (List.mem_cons_self c rest)
    cases h : matchesCondition env tab c with
    | error e => rw [h] at hc; simp [Except.isOk, Except.toBool] at hc
    | ok m =>
      have ih' := ih (fun d hd => hok d (List.mem_cons_of_mem c hd))
      cases m with
      | true => simp [orConditionLoop, h]
      | false => simp [orConditionLoop, h, ih']

/-- C2 counterexample: with operator OR the loop body never runs on an empty
condition list and the function falls through to `return false`, so an empty
list does not evaluate true regardless of operator. -/
theorem matchesConditions_empty_or_cex :
    matchesConditions jsEnv0
      { id := some 1, url := none, title := none, favIconUrl := none
        pinned := false, active := false, discarded := false }
      [] (some .OR) = .ok false
    ∧ matchesConditions jsEnv0
      { id := some 1, url := none, title := none, favIconUrl := none
        pinned := false, active := false, discarded := false }
      [] (some .OR) ≠ .ok true := by
  exact ⟨rfl, by decide⟩

/-- C2 amended: when every listed condition evaluates without throwing, the
AND combination is true iff every condition matches, the OR combination is
true iff some condition matches, and an unspecified operator behaves exactly
as AND; an empty condition list evaluates true under AND and under the
defaulted operator, but false under OR. -/
theorem matchesConditions_andOr_spec (env : JsEnv) (tab : Tab)
    (conditions : List RuleCondition)
    (hok : ∀ c ∈ conditions, (matchesCondition env tab c).isOk = true) :
    (matchesConditions env tab conditions (some .AND) = .ok true ↔
      ∀ c ∈ conditions, matchesCondition env tab c = .ok true)
    ∧ (matchesConditions env tab conditions (some .OR) = .ok true ↔
      ∃ c ∈ conditions, matchesCondition env tab c = .ok true)
    ∧ matchesConditions env tab conditions none
        = matchesConditions env tab conditions (some .AND)
    ∧ matchesConditions env tab [] (some .AND) = .ok true
    ∧ matchesConditions env tab [] none = .ok true
    ∧ matchesConditions env tab [] (some .OR) = .ok false := by
  refine ⟨?_, ?_, rfl, rfl, rfl, rfl⟩
  · simpa [matchesConditions] using andConditionLoop_ok_true env tab conditions
  · simpa [matchesConditions] using orConditionLoop_ok_true env tab conditions hok

/-- Witness for C2: a two-condition rule on a concrete tab, evaluated under
AND, OR, and the defaulted operator. -/
theorem matchesConditions_andOr_witness :
    (matchesConditions jsEnv0
        { id := some 7, url := some (str "https://news.site/a"), title := some (str "Front Page")
          favIconUrl := none, pinned := false, active := false, discarded := false }
        [{ type := .url, operator := "contains", value := str "NEWS", caseSensitive := none },
         { type := .title, operator := "starts_with", value := str "front", caseSensitive := none }]
        (some .AND) = .ok true)
    ∧ (matchesConditions jsEnv0
        { id := some 7, url := some (str "https://news.site/a"), title := some (str "Front Page")
          favIconUrl := none, pinned := false, active := false, discarded := false }
        [{ type := .url, operator := "contains", value := str "sports", caseSensitive := none },
         { type := .title, operator := "starts_with", value := str "front", caseSensitive := none }]
        (some .OR) = .ok true) := by
  constructor
  · exact (matchesConditions_andOr_spec jsEnv0
      { id := some 7, url := some (str "https://news.site/a"), title := some (str "Front Page")
        favIconUrl := none, pinned := false, active := false, discarded := false }
      [{ type := .url, operator := "contains", value := str "NEWS", caseSensitive := none },
       { type := .title, operator := "starts_with", value := str "front", caseSensitive := none }]
      (by decide)).1.mpr (by decide)
  · exact (matchesConditions_andOr_spec jsEnv0
      { id := some 7, url := some (str "https://news.site/a"), title := some (str "Front Page")
        favIconUrl := none, pinned := false, active := false, discarded := false }
      [{ type := .url, operator := "contains", value := str "sports", caseSensitive := none },
       { type := .title, operator := "starts_with", value := str "front", caseSensitive := none }]
      (by decide)).2.1.mpr (by decide)

/-- C3 counterexample: the pattern `"["` does not compile as a regular
expression (`new RegExp("[")` throws `SyntaxError`), and `matchesPattern` has
no try/catch around the `new RegExp` call, so the exception escapes the
pattern matcher instead of being treated as a non-match. -/
theorem matchesPattern_regex_compile_failure_cex :
    matchesPattern jsEnv0 (str "x") "matches" (str "[") false = .error ()
    ∧ matchesPattern jsEnv0 (str "x") "matches" (str "[") false ≠ .ok false := by
  exact ⟨by decide, by decide⟩

/-- C3 amended: whenever the regex constructor fails on the pattern, the
exception propagates out of `matchesPattern` — the condition is not turned
into a non-match. -/
theorem matchesPattern_regex_compile_failure_throws (env : JsEnv) (text pat : Str)
    (cs : Bool) (h : env.regexCompile pat (!cs) = none) :
    matchesPattern env text "matches" pat cs = .error () := by
  simp [matchesPattern, h]

/-- Witness for the amended C3 at the concrete malformed pattern. -/
theorem matchesPattern_regex_compile_failure_witness :
    matchesPattern jsEnv0 (str "anything") "matches" (str "[") true = .error () :=
  matchesPattern_regex_compile_failure_throws jsEnv0 (str "anything") (str "[") true rfl

/-- C4 counterexample: on a tab whose URL is present but not parseable
(`new URL("notaurl")` throws `TypeError`), the `domain` arm throws out of the
condition evaluator, whereas evaluating against the empty domain — what the
claim prescribes — would have returned `.ok true` for this condition. -/
theorem domainCondition_unparseable_url_cex :
    matchesCondition jsEnv0
      { id := some 1, url := some (str "notaurl"), title := none, favIconUrl := none
        pinned := false, active := false, discarded := false }
      { type := .domain, operator := "equals", value := str "", caseSensitive := none }
      = .error ()
    ∧ matchesPattern jsEnv0 [] "equals" (str "") false = .ok true := by
  exact ⟨by decide, by decide⟩

/-- C4 amended: for a `domain` condition the evaluator derives the empty
domain only when the tab URL is absent or the empty string; when a non-empty
URL is present, the condition evaluates against its parsed hostname, and if
parsing fails the evaluation throws rather than falling back to the empty
string. -/
theorem domainCondition_url_handling (env : JsEnv) (tab : Tab) (c : RuleCondition)
    (hc : c.type = .domain) :
    (tab.url = none →
      matchesCondition env tab c
        = matchesPattern env [] c.operator c.value (c.caseSensitive.getD false))
    ∧ (tab.url = some [] →
      matchesCondition env tab c
        = matchesPattern env [] c.operator c.value (c.caseSensitive.getD false))
    ∧ (∀ u, tab.url = some u → u ≠ [] → env.urlHost u = none →
      matchesCondition env tab c = .error ())
    ∧ (∀ u h, tab.url = some u → u ≠ [] → env.urlHost u = some h →
      matchesCondition env tab c
        = matchesPattern env h c.operator c.value (c.caseSensitive.getD false)) := by
  refine ⟨?_, ?_, ?_, ?_⟩
  · intro hu; simp [matchesCondition, hc, hu, jsTruthyStr]
  · intro hu; simp [matchesCondition, hc, hu, jsTruthyStr]
  · intro u hu hne hhost
    simp [matchesCondition, hc, hu, jsTruthyStr, List.isEmpty_iff, hne, hhost]
  · intro u h hu hne hhost
    simp [matchesCondition, hc, hu, jsTruthyStr, List.isEmpty_iff, hne, hhost]

/-- Witness for the amended C4: an absent URL and a parseable URL on the same
`domain` condition. -/
theorem domainCondition_url_handling_witness :
    matchesCondition jsEnv0
      { id := some 1, url := none, title := none, favIconUrl := none
        pinned := false, active := false, discarded := false }
      { type := .domain, operator := "equals", value := str "", caseSensitive := none }
      = .ok true
    ∧ matchesCondition jsEnv0
      { id := some 2, url := some (str "https://news.site/a"), title := none, favIconUrl := none
        pinned := false, active := false, discarded := false }
      { type := .domain, operator := "equals", value := str "news.site", caseSensitive := none }
      = .ok true := by
  constructor
  · exact ((domainCondition_url_handling jsEnv0
      { id := some 1, url := none, title := none, favIconUrl := none
        pinned := false, active := false, discarded := false }
      { type := .domain, operator := "equals", value := str "", caseSensitive := none }
      rfl).1 rfl).trans (by decide)
  · exact ((domainCondition_url_handling jsEnv0
      { id := some 2, url := some (str "https://news.site/a"), title := none, favIconUrl := none
        pinned := false, active := false, discarded := false }
      { type := .domain, operator := "equals", value := str "news.site", caseSensitive := none }
      rfl).2.2.2 (str "https://news.site/a") (str "news.site") rfl (by decide)
        (by decide)).trans (by decide)

/-- An entry of the persisted `archivedTabs` list (src/background.ts:424-430). -/
structure ArchivedRecord where
  url : Str
  title : Option Str
  favIconUrl : Option Str
  archivedAt : Nat
  timeSpent : Nat
deriving DecidableEq

/-- The Tab Backend mutations and Persistent Store writes the policies issue,
in program order. -/
inductive Effect
  | pushArchived (r : ArchivedRecord)
  | setArchivedTabs (rs : List ArchivedRecord)
  | resetDailyStats
  | removeTab (id : Nat)
  | discardTab (id : Nat)
  | pinTab (id : Nat)
  | groupAddExisting (tabId : Nat) (groupId : Nat)
  | groupCreateTitled (tabId : Nat) (title : Str)
deriving DecidableEq

/-- The settings fields the background policies read
(src/types/index.ts:62-77); UI-only fields are omitted. -/
structure Settings where
  autoArchiveEnabled : Bool
  autoArchiveMinutes : Nat
  duplicateDetection : Bool
  memorySaverEnabled : Bool
  memorySaverThresholdMB : Nat
  dailyCleanupEnabled : Bool
  tabLimitEnabled : Bool
  tabLimitCount : Nat
deriving DecidableEq

/-- The recorded last-access time of a tab, as every policy reads it:
`tab.id ? (tabLastAccessed.get(tab.id) || 0) : 0` — a missing entry and a
falsy id both read as 0. `acc` is the in-memory `tabLastAccessed` map. -/
def lastAccessOf (acc : Nat → Option Nat) (t : Tab) : Nat :=
  match t.id with
  | some i => if i ≠ 0 then (acc i).getD 0 else 0
  | none => 0

/-- Shallow embedding of `archiveTab` (src/background.ts:418-434): a no-op
when the tab lacks a (truthy) id or URL, otherwise an append of the archived
record to the store followed by removal of the tab. `ts` is the in-memory
`tabTimeSpent` map. -/
def archiveTab (ts : Nat → Option Nat) (now : Nat) (tab : Tab) : List Effect :=
  if jsTruthyNat tab.id && jsTruthyStr tab.url then
    [.pushArchived
      { url := tab.url.getD [], title := tab.title, favIconUrl := tab.favIconUrl
        archivedAt := now, timeSpent := (ts (tab.id.getD 0)).getD 0 },
     .removeTab (tab.id.getD 0)]
  else []

/-- One step of the stable ascending sort: insert `x` before the first
element whose key is not smaller. -/
def insertByKey {α : Type} (key : α → Nat) (x : α) : List α → List α
  | [] => [x]
  | y :: ys => if key x ≤ key y then x :: y :: ys else y :: insertByKey key x ys

/-- `Array.prototype.sort` with the comparator `(a, b) => keyA - keyB`, as the
policies use it: ascending by key and stable (required of `sort` since
ES2019). A stable sort under a total preorder comparator has a unique result,
so this structurally recursive stable insertion sort computes exactly it. -/
def sortByKey {α : Type} (key : α → Nat) : List α → List α
  | [] => []
  | x :: xs => insertByKey key x (sortByKey key xs)

theorem insertByKey_perm {α : Type} (key : α → Nat) (x : α) (l : List α) :
    List.Perm (insertByKey key x l) (x :: l) := by
  induction l with
  | nil => rfl
  | cons y ys ih =>
    by_cases h : key x ≤ key y
    · simp [insertByKey, h]
    · simp only [insertByKey, if_neg h]
      exact (ih.cons y).trans (List.Perm.swap x y ys)

theorem sortByKey_perm {α : Type} (key : α → Nat) (l : List α) :
    List.Perm (sortByKey key l) l := by
  induction l with
  | nil => rfl
  | cons x xs ih => exact (insertByKey_perm key x (sortByKey key xs)).trans (ih.cons x)

theorem mem_sortByKey {α : Type} {key : α → Nat} {l : List α} {a : α} :
    a ∈ sortByKey key l ↔ a ∈ l :=
  (sortByKey_perm key l).mem_iff

theorem length_sortByKey {α : Type} (key : α → Nat) (l : List α) :
    (sortByKey key l).length = l.length :=
  (sortByKey_perm key l).length_eq

theorem pairwise_insertByKey {α : Type} {key : α → Nat} {l : List α} (x : α)
    (hl : List.Pairwise (fun a b => key a ≤ key b) l) :
    List.Pairwise (fun a b => key a ≤ key b) (insertByKey key x l) := by
  induction l with
  | nil => simp [insertByKey]
  | cons y ys ih =>
    rw [List.pairwise_cons] at hl
    obtain ⟨hy, hys⟩ := hl
    by_cases h : key x ≤ key y
    · rw [insertByKey, if_pos h, List.pairwise_cons]
      refine ⟨?_, List.pairwise_cons.mpr ⟨hy, hys⟩⟩
      intro a ha
      rcases List.mem_cons.mp ha with rfl | ha
      · exact h
      · exact le_trans h (hy a ha)
    · rw [insertByKey, if_neg h, List.pairwise_cons]
      refine ⟨?_, ih hys⟩
      intro a ha
      rcases List.mem_cons.mp ((insertByKey_perm key x ys).mem_iff.mp ha) with rfl | ha
      · exact le_of_not_le h
      · exact hy a ha

theorem pairwise_sortByKey {α : Type} (key : α → Nat) (l : List α) :
    List.Pairwise (fun a b => key a ≤ key b) (sortByKey key l) := by
  induction l with
  | nil => simp [sortByKey]
  | cons x xs ih => exact pairwise_insertByKey x ih

/-- Elements kept by `take` precede the dropped ones in key order. -/
theorem sortByKey_take_le_drop {α : Type} (key : α → Nat) (l : List α) (n : Nat) :
    ∀ a ∈ (sortByKey key l).take n, ∀ b ∈ (sortByKey key l).drop n, key a ≤ key b := by
  have h := pairwise_sortByKey key l
  rw [← List.take_append_drop n (sortByKey key l), List.pairwise_append] at h
  exact h.2.2

theorem jsTruthyNat_iff {o : Option Nat} : jsTruthyNat o = true ↔ ∃ i, o = some i ∧ i ≠ 0 := by
  cases o <;> simp [jsTruthyNat]

theorem lastAccessOf_eq {acc : Nat → Option Nat} {t : Tab} {i : Nat}
    (h : t.id = some i) (h0 : i ≠ 0) : lastAccessOf acc t = (acc i).getD 0 := by
  simp [lastAccessOf, h, h0]

/-- The special-page guard of `checkDuplicates` (src/background.ts:559-564). -/
def isSpecialUrl (u : Str) : Bool :=
  decide (str "chrome://" <+: u) || decide (str "chrome-extension://" <+: u) ||
  decide (u = str "chrome://newtab/") || decide (u = str "about:blank")

/-- The `exactMatches` local of `checkDuplicates` (src/background.ts:568):
all tabs with a URL strictly equal to the subject's and a different id. -/
def exactMatchesOf (allTabs : List Tab) (tab : Tab) : List Tab :=
  allTabs.filter (fun t => decide (t.url = tab.url) && decide (t.id ≠ tab.id))

/-- The body of the closing loop of `checkDuplicates`
(src/background.ts:581-586): close the duplicate when it has a truthy id that
differs from the subject's. -/
def closeDuplicateEffect (tab : Tab) (d : Tab) : Option Effect :=
  if jsTruthyNat d.id && decide (d.id ≠ tab.id) then some (.removeTab (d.id.getD 0)) else none

/-- Shallow embedding of `checkDuplicates` (src/background.ts:554-588):
bail out when detection is disabled or the tab lacks a truthy URL or id, or
the URL is a special page; otherwise sort the exact matches oldest-access
first and close them in that order. -/
def checkDuplicates (s : Settings) (acc : Nat → Option Nat) (allTabs : List Tab)
    (tab : Tab) : List Effect :=
  if !s.duplicateDetection || !jsTruthyStr tab.url || !jsTruthyNat tab.id then []
  else if isSpecialUrl (tab.url.getD []) then []
  else if (exactMatchesOf allTabs tab).length > 0 then
    (sortByKey (lastAccessOf acc) (exactMatchesOf allTabs tab)).filterMap
      (closeDuplicateEffect tab)
  else []

/-- The ids of the tabs an effect list removes, in order. -/
def removedIds (E : List Effect) : List Nat :=
  E.filterMap (fun e => match e with | .removeTab i => some i | _ => none)

theorem closeDuplicateEffect_eq_some {tab d : Tab} {e : Effect} :
    closeDuplicateEffect tab d = some e ↔
      ∃ i, d.id = some i ∧ i ≠ 0 ∧ d.id ≠ tab.id ∧ e = .removeTab i := by
  cases hd : d.id with
  | none => simp [closeDuplicateEffect, jsTruthyNat, hd]
  | some j =>
    by_cases h0 : j = 0
    · simp [closeDuplicateEffect, jsTruthyNat, hd, h0]
    · by_cases hne : (some j : Option Nat) = tab.id
      · simp [closeDuplicateEffect, jsTruthyNat, hd, h0, hne]
      · simp [closeDuplicateEffect, jsTruthyNat, hd, h0, hne, eq_comm]

theorem closeDuplicateId_eq_some {tab d : Tab} {i : Nat} :
    ((closeDuplicateEffect tab d).bind
      (fun e => match e with | Effect.removeTab j => some j | _ => none)) = some i ↔
      d.id = some i ∧ i ≠ 0 ∧ d.id ≠ tab.id := by
  rw [Option.bind_eq_some]
  constructor
  · rintro ⟨e, he, hm⟩
    obtain ⟨i', hid, h0, hne, rfl⟩ := closeDuplicateEffect_eq_some.mp he
    simp only [Option.some.injEq] at hm
    exact hm ▸ ⟨hid, h0, hne⟩
  · rintro ⟨hid, h0, hne⟩
    exact ⟨.removeTab i, closeDuplicateEffect_eq_some.mpr ⟨i, hid, h0, hne, rfl⟩, rfl⟩

/-- C5: with duplicate detection on and a subject tab with a truthy id and a
non-special URL, the detector closes exactly the other open tabs whose URL is
strictly equal to the subject's, in ascending order of recorded last-access
time (an untracked tab reads as time 0), only issues tab removals, and never
closes the subject itself. -/
theorem checkDuplicates_spec (s : Settings) (acc : Nat → Option Nat) (allTabs : List Tab)
    (tab : Tab) (subjId : Nat) (u : Str) (E : List Effect)
    (hE : E = checkDuplicates s acc allTabs tab)
    (hdet : s.duplicateDetection = true)
    (hurl : tab.url = some u) (hu : u ≠ [])
    (hspecial : isSpecialUrl u = false)
    (hid : tab.id = some subjId) (hid0 : subjId ≠ 0)
    (hids : ∀ t ∈ allTabs, jsTruthyNat t.id = true) :
    (∀ e ∈ E, ∃ i, e = Effect.removeTab i)
    ∧ (∀ i, Effect.removeTab i ∈ E ↔
        ∃ t ∈ allTabs, t.id = some i ∧ t.url = some u ∧ i ≠ subjId)
    ∧ Effect.removeTab subjId ∉ E
    ∧ List.Pairwise (fun i j => (acc i).getD 0 ≤ (acc j).getD 0) (removedIds E) := by
  have hE' : E = (sortByKey (lastAccessOf acc) (exactMatchesOf allTabs tab)).filterMap
      (closeDuplicateEffect tab) := by
    rw [hE]
    unfold checkDuplicates
    rw [if_neg (by simp [hdet, hurl, hid, jsTruthyStr, jsTruthyNat, hid0, hu]),
      if_neg (by simp [hurl, hspecial])]
    by_cases hlen : (exactMatchesOf allTabs tab).length > 0
    · rw [if_pos hlen]
    · rw [if_neg hlen]
      have : exactMatchesOf allTabs tab = [] := by
        cases h : exactMatchesOf allTabs tab with
        | nil => rfl
        | cons a l => rw [h] at hlen; simp at hlen
      rw [this]
      rfl
  have hmem : ∀ i, Effect.removeTab i ∈ E ↔
      ∃ t ∈ allTabs, t.id = some i ∧ t.url = some u ∧ i ≠ subjId := by
    intro i
    rw [hE', List.mem_filterMap]
    constructor
    · rintro ⟨d, hdM, hg⟩
      obtain ⟨i', hdid, h0, hdne, he⟩ := closeDuplicateEffect_eq_some.mp hg
      obtain rfl : i' = i := by simpa using he.symm
      have hdX := mem_sortByKey.mp hdM
      rw [exactMatchesOf, List.mem_filter] at hdX
      obtain ⟨hdall, hcond⟩ := hdX
      simp only [Bool.and_eq_true, decide_eq_true_eq] at hcond
      refine ⟨d, hdall, hdid, ?_, ?_⟩
      · rw [hcond.1, hurl]
      · intro hii
        exact hcond.2 (by rw [hdid, hid, hii])
    · rintro ⟨t, htall, htid, hturl, hine⟩
      have hne : t.id ≠ tab.id := by
        rw [htid, hid]
        simp [hine]
      refine ⟨t, mem_sortByKey.mpr ?_, ?_⟩
      · rw [exactMatchesOf, List.mem_filter]
        refine ⟨htall, by simp [hturl, hurl, hne]⟩
      · have h0 : i ≠ 0 := by
          obtain ⟨j, hj, hj0⟩ := jsTruthyNat_iff.mp (hids t htall)
          rw [htid] at hj
          obtain rfl : i = j := by simpa using hj
          exact hj0
        exact closeDuplicateEffect_eq_some.mpr ⟨i, htid, h0, hne, rfl⟩
  refine ⟨?_, hmem, ?_, ?_⟩
  · intro e he
    rw [hE', List.mem_filterMap] at he
    obtain ⟨d, _, hg⟩ := he
    obtain ⟨i, _, _, _, rfl⟩ := closeDuplicateEffect_eq_some.mp hg
    exact ⟨i, rfl⟩
  · intro hmem'
    obtain ⟨t, _, _, _, hne⟩ := (hmem subjId).mp hmem'
    exact hne rfl
  · have hrem : removedIds E = (sortByKey (lastAccessOf acc) (exactMatchesOf allTabs tab)).filterMap
        (fun d => (closeDuplicateEffect tab d).bind
          (fun e => match e with | Effect.removeTab j => some j | _ => none)) := by
      rw [hE', removedIds, List.filterMap_filterMap]
    rw [hrem]
    rw [List.pairwise_filterMap]
    refine (pairwise_sortByKey (lastAccessOf acc) (exactMatchesOf allTabs tab)).imp ?_
    intro a b hab i hi j hj
    obtain ⟨hai, hi0, _⟩ := closeDuplicateId_eq_some.mp hi
    obtain ⟨hbj, hj0, _⟩ := closeDuplicateId_eq_some.mp hj
    rw [lastAccessOf_eq hai hi0, lastAccessOf_eq hbj hj0] at hab
    exact hab

/-- Witness for C5: the specification's example — subject A(url X, t=100) with
duplicates B(t=50) and C(t=75) — closes exactly [B, C] in that order, and A
survives. -/
theorem checkDuplicates_witness :
    checkDuplicates
      { autoArchiveEnabled := false, autoArchiveMinutes := 30, duplicateDetection := true
        memorySaverEnabled := false, memorySaverThresholdMB := 500
        dailyCleanupEnabled := false, tabLimitEnabled := false, tabLimitCount := 50 }
      (fun i => if i = 1 then some 100 else if i = 2 then some 50 else
        if i = 3 then some 75 else none)
      [{ id := some 1, url := some (str "https://x.test/"), title := none, favIconUrl := none
         pinned := false, active := true, discarded := false },
       { id := some 2, url := some (str "https://x.test/"), title := none, favIconUrl := none
         pinned := false, active := false, discarded := false },
       { id := some 3, url := some (str "https://x.test/"), title := none, favIconUrl := none
         pinned := false, active := false, discarded := false }]
      { id := some 1, url := some (str "https://x.test/"), title := none, favIconUrl := none
        pinned := false, active := true, discarded := false }
      = [Effect.removeTab 2, Effect.removeTab 3]
    ∧ Effect.removeTab 1 ∉ checkDuplicates
      { autoArchiveEnabled := false, autoArchiveMinutes := 30, duplicateDetection := true
        memorySaverEnabled := false, memorySaverThresholdMB := 500
        dailyCleanupEnabled := false, tabLimitEnabled := false, tabLimitCount := 50 }
      (fun i => if i = 1 then some 100 else if i = 2 then some 50 else
        if i = 3 then some 75 else none)
      [{ id := some 1, url := some (str "https://x.test/"), title := none, favIconUrl := none
         pinned := false, active := true, discarded := false },
       { id := some 2, url := some (str "https://x.test/"), title := none, favIconUrl := none
         pinned := false, active := false, discarded := false },
       { id := some 3, url := some (str "https://x.test/"), title := none, favIconUrl := none
         pinned := false, active := false, discarded := false }]
      { id := some 1, url := some (str "https://x.test/"), title := none, favIconUrl := none
        pinned := false, active := true, discarded := false } := by
  refine ⟨by decide, ?_⟩
  exact (checkDuplicates_spec _ _ _ _ 1 (str "https://x.test/") _ rfl rfl rfl
    (by decide) (by decide) rfl (by decide) (by decide)).2.2.1

/-- Whether an effect is an Archive Manager store write. -/
def isArchiveWrite : Effect → Bool
  | .pushArchived _ => true
  | _ => false

theorem countP_flatMap_ones {α : Type} (p : Effect → Bool) (f : α → List Effect)
    (l : List α) (h : ∀ t ∈ l, (f t).countP p = 1) :
    (l.flatMap f).countP p = l.length := by
  induction l with
  | nil => rfl
  | cons x xs ih =>
    rw [List.flatMap_cons, List.countP_append, h x (List.mem_cons_self x xs),
      ih (fun t ht => h t (List.mem_cons_of_mem x ht))]
    simp [Nat.add_comm]

theorem length_filterMap_of_isSome {α β : Type} (f : α → Option β) (l : List α)
    (h : ∀ a ∈ l, (f a).isSome = true) : (l.filterMap f).length = l.length := by
  induction l with
  | nil => rfl
  | cons x xs ih =>
    obtain ⟨b, hb⟩ := Option.isSome_iff_exists.mp (h x (List.mem_cons_self x xs))
    rw [List.filterMap_cons, hb, List.length_cons,
      ih (fun a ha => h a (List.mem_cons_of_mem x ha))]
    rfl

/-- The eligibility filter of `enforceTabLimits` (src/background.ts:659-661):
not pinned, not active, truthy id. -/
def eligibleForLimit (t : Tab) : Bool := !t.pinned && !t.active && jsTruthyNat t.id

/-- Shallow embedding of `enforceTabLimits` (src/background.ts:650-675): when
enabled and over the limit, sort the non-pinned non-active tabs oldest-access
first and archive the first `(count - limit)` of them through `archiveTab`. -/
def enforceTabLimits (s : Settings) (acc ts : Nat → Option Nat) (now : Nat)
    (tabs : List Tab) : List Effect :=
  if !s.tabLimitEnabled then []
  else if tabs.length > s.tabLimitCount then
    ((sortByKey (lastAccessOf acc) (tabs.filter eligibleForLimit)).take
      (tabs.length - s.tabLimitCount)).flatMap (archiveTab ts now)
  else []

/-- C6: when the limit policy runs enabled with the open-tab count above the
limit (and enough eligible tabs, all with URLs), every issued effect goes
through the Archive Manager — the selected tabs are handed to `archiveTab`,
producing exactly `(count − limit)` archive-store writes — and the selected
tabs are non-pinned, non-active, and no younger than every unselected
eligible tab. -/
theorem enforceTabLimits_spec (s : Settings) (acc ts : Nat → Option Nat) (now : Nat)
    (tabs : List Tab) (E : List Effect)
    (hE : E = enforceTabLimits s acc ts now tabs)
    (hen : s.tabLimitEnabled = true)
    (hover : tabs.length > s.tabLimitCount)
    (hurl : ∀ t ∈ tabs, jsTruthyStr t.url = true)
    (hn : tabs.length - s.tabLimitCount ≤ (tabs.filter eligibleForLimit).length) :
    E = ((sortByKey (lastAccessOf acc) (tabs.filter eligibleForLimit)).take
          (tabs.length - s.tabLimitCount)).flatMap (archiveTab ts now)
    ∧ E.countP isArchiveWrite = tabs.length - s.tabLimitCount
    ∧ (∀ t ∈ (sortByKey (lastAccessOf acc) (tabs.filter eligibleForLimit)).take
          (tabs.length - s.tabLimitCount), t.pinned = false ∧ t.active = false)
    ∧ (∀ t ∈ (sortByKey (lastAccessOf acc) (tabs.filter eligibleForLimit)).take
          (tabs.length - s.tabLimitCount),
       ∀ v ∈ (sortByKey (lastAccessOf acc) (tabs.filter eligibleForLimit)).drop
          (tabs.length - s.tabLimitCount),
        lastAccessOf acc t ≤ lastAccessOf acc v) := by
  have hsel : ∀ t ∈ (sortByKey (lastAccessOf acc) (tabs.filter eligibleForLimit)).take
      (tabs.length - s.tabLimitCount), t ∈ tabs ∧ eligibleForLimit t = true := by
    intro t ht
    have := mem_sortByKey.mp (List.take_subset _ _ ht)
    exact List.mem_filter.mp this
  have hE' : E = ((sortByKey (lastAccessOf acc) (tabs.filter eligibleForLimit)).take
      (tabs.length - s.tabLimitCount)).flatMap (archiveTab ts now) := by
    rw [hE]
    unfold enforceTabLimits
    rw [if_neg (by simp [hen]), if_pos hover]
  refine ⟨hE', ?_, ?_, ?_⟩
  · rw [hE', countP_flatMap_ones]
    · rw [List.length_take, length_sortByKey]
      exact min_eq_left hn
    · intro t ht
      obtain ⟨htabs, helig⟩ := hsel t ht
      have hid : jsTruthyNat t.id = true := by
        simp only [eligibleForLimit, Bool.and_eq_true] at helig
        exact helig.2
      rw [archiveTab, if_pos (by simp [hid, hurl t htabs])]
      rfl
  · intro t ht
    obtain ⟨_, helig⟩ := hsel t ht
    simp only [eligibleForLimit, Bool.and_eq_true, Bool.not_eq_true'] at helig
    exact ⟨helig.1.1, helig.1.2⟩
  · exact sortByKey_take_le_drop (lastAccessOf acc) (tabs.filter eligibleForLimit)
      (tabs.length - s.tabLimitCount)

/-- Witness for C6: the specification's example — limit 5, 8 open tabs
(2 pinned, 1 active, 5 eligible with access times 10..50): exactly the three
tabs with access times 10, 20, 30 are archived, each through the Archive
Manager (store write then removal). -/
theorem enforceTabLimits_witness :
    enforceTabLimits
      { autoArchiveEnabled := false, autoArchiveMinutes := 30, duplicateDetection := true
        memorySaverEnabled := false, memorySaverThresholdMB := 500
        dailyCleanupEnabled := false, tabLimitEnabled := true, tabLimitCount := 5 }
      (fun i => if i ≤ 5 then some (i * 10) else none) (fun _ => some 0) 1000
      [{ id := some 1, url := some (str "https://a.test/"), title := none, favIconUrl := none
         pinned := false, active := false, discarded := false },
       { id := some 2, url := some (str "https://b.test/"), title := none, favIconUrl := none
         pinned := false, active := false, discarded := false },
       { id := some 3, url := some (str "https://c.test/"), title := none, favIconUrl := none
         pinned := false, active := false, discarded := false },
       { id := some 4, url := some (str "https://d.test/"), title := none, favIconUrl := none
         pinned := false, active := false, discarded := false },
       { id := some 5, url := some (str "https://e.test/"), title := none, favIconUrl := none
         pinned := false, active := false, discarded := false },
       { id := some 6, url := some (str "https://f.test/"), title := none, favIconUrl := none
         pinned := true, active := false, discarded := false },
       { id := some 7, url := some (str "https://g.test/"), title := none, favIconUrl := none
         pinned := true, active := false, discarded := false },
       { id := some 8, url := some (str "https://h.test/"), title := none, favIconUrl := none
         pinned := false, active := true, discarded := false }]
      = [Effect.pushArchived
          { url := str "https://a.test/", title := none, favIconUrl := none
            archivedAt := 1000, timeSpent := 0 },
         Effect.removeTab 1,
         Effect.pushArchived
          { url := str "https://b.test/", title := none, favIconUrl := none
            archivedAt := 1000, timeSpent := 0 },
         Effect.removeTab 2,
         Effect.pushArchived
          { url := str "https://c.test/", title := none, favIconUrl := none
            archivedAt := 1000, timeSpent := 0 },
         Effect.removeTab 3]
    ∧ (enforceTabLimits
      { autoArchiveEnabled := false, autoArchiveMinutes := 30, duplicateDetection := true
        memorySaverEnabled := false, memorySaverThresholdMB := 500
        dailyCleanupEnabled := false, tabLimitEnabled := true, tabLimitCount := 5 }
      (fun i => if i ≤ 5 then some (i * 10) else none) (fun _ => some 0) 1000
      [{ id := some 1, url := some (str "https://a.test/"), title := none, favIconUrl := none
         pinned := false, active := false, discarded := false },
       { id := some 2, url := some (str "https://b.test/"), title := none, favIconUrl := none
         pinned := false, active := false, discarded := false },
       { id := some 3, url := some (str "https://c.test/"), title := none, favIconUrl := none
         pinned := false, active := false, discarded := false },
       { id := some 4, url := some (str "https://d.test/"), title := none, favIconUrl := none
         pinned := false, active := false, discarded := false },
       { id := some 5, url := some (str "https://e.test/"), title := none, favIconUrl := none
         pinned := false, active := false, discarded := false },
       { id := some 6, url := some (str "https://f.test/"), title := none, favIconUrl := none
         pinned := true, active := false, discarded := false },
       { id := some 7, url := some (str "https://g.test/"), title := none, favIconUrl := none
         pinned := true, active := false, discarded := false },
       { id := some 8, url := some (str "https://h.test/"), title := none, favIconUrl := none
         pinned := false, active := true, discarded := false }]).countP isArchiveWrite = 3 := by
  refine ⟨by decide, ?_⟩
  exact (enforceTabLimits_spec _ _ _ _ _ _ rfl rfl (by decide) (by decide) (by decide)).2.1

/-- The `chrome.tabs.query({ active: false, pinned: false })` call of
`suspendMemoryHeavyTabs` (src/background.ts:615). -/
def queryNonActiveUnpinned (tabs : List Tab) : List Tab :=
  tabs.filter (fun t => !t.active && !t.pinned)

/-- The `estimatedMemoryMB` local (src/background.ts:620): 50MB per
non-active, non-pinned tab, a fixed heuristic. -/
def estimatedMemoryMB (allTabs : List Tab) : Nat :=
  (queryNonActiveUnpinned allTabs).length * 50

/-- The idle filter of `suspendMemoryHeavyTabs` (src/background.ts:624-628):
a truthy id and more than 15 minutes since the recorded last access. -/
def idleFilter (acc : Nat → Option Nat) (now : Nat) (t : Tab) : Bool :=
  jsTruthyNat t.id && decide (now - lastAccessOf acc t > 15 * 60 * 1000)

/-- The `inactiveTabs` local (src/background.ts:624-628). -/
def inactiveTabsOf (acc : Nat → Option Nat) (now : Nat) (allTabs : List Tab) : List Tab :=
  (queryNonActiveUnpinned allTabs).filter (idleFilter acc now)

/-- The `tabsToSuspend` local (src/background.ts:638):
`Math.ceil((estimate − threshold) / 50)`, which on naturals with
estimate > threshold is `(estimate − threshold + 49) / 50`. -/
def tabsToSuspendOf (s : Settings) (allTabs : List Tab) : Nat :=
  (estimatedMemoryMB allTabs - s.memorySaverThresholdMB + 49) / 50

/-- The body of the suspension loop (src/background.ts:641-645): discard a
processed tab only when it has a truthy id and is not already discarded. -/
def discardEffect (t : Tab) : Option Effect :=
  if jsTruthyNat t.id && !t.discarded then some (.discardTab (t.id.getD 0)) else none

/-- Shallow embedding of `suspendMemoryHeavyTabs` (src/background.ts:611-647):
when enabled and the 50MB-per-tab estimate exceeds the threshold, sort the
idle tabs oldest-access first, slice off `tabsToSuspend` of them, and discard
each sliced tab that is not already discarded. -/
def suspendMemoryHeavyTabs (s : Settings) (acc : Nat → Option Nat) (now : Nat)
    (allTabs : List Tab) : List Effect :=
  if !s.memorySaverEnabled then []
  else if estimatedMemoryMB allTabs > s.memorySaverThresholdMB then
    ((sortByKey (lastAccessOf acc) (inactiveTabsOf acc now allTabs)).take
      (tabsToSuspendOf s allTabs)).filterMap discardEffect
  else []

/-- C7: running enabled, the policy issues effects iff the 50MB-per-tab
estimate exceeds the threshold; every effect is a discard (never a close or
archive) of a non-discarded tab from the >15-minutes-idle set; the sliced
tabs are no younger than every unsliced idle tab; and when the slice is
inside the idle set and contains no already-discarded tab, exactly
`ceil((estimate − threshold) / 50)` tabs are discarded. -/
theorem suspendMemoryHeavyTabs_spec (s : Settings) (acc : Nat → Option Nat) (now : Nat)
    (allTabs : List Tab) (E : List Effect)
    (hE : E = suspendMemoryHeavyTabs s acc now allTabs)
    (hen : s.memorySaverEnabled = true) :
    (estimatedMemoryMB allTabs ≤ s.memorySaverThresholdMB → E = [])
    ∧ (estimatedMemoryMB allTabs > s.memorySaverThresholdMB →
        (∀ e ∈ E, ∃ i, e = Effect.discardTab i)
        ∧ (∀ i, Effect.discardTab i ∈ E →
            ∃ t ∈ inactiveTabsOf acc now allTabs, t.id = some i ∧ t.discarded = false)
        ∧ (∀ t ∈ (sortByKey (lastAccessOf acc) (inactiveTabsOf acc now allTabs)).take
              (tabsToSuspendOf s allTabs),
           ∀ v ∈ (sortByKey (lastAccessOf acc) (inactiveTabsOf acc now allTabs)).drop
              (tabsToSuspendOf s allTabs),
            lastAccessOf acc t ≤ lastAccessOf acc v)
        ∧ ((∀ t ∈ (sortByKey (lastAccessOf acc) (inactiveTabsOf acc now allTabs)).take
              (tabsToSuspendOf s allTabs), t.discarded = false) →
           tabsToSuspendOf s allTabs ≤ (inactiveTabsOf acc now allTabs).length →
           E.length = tabsToSuspendOf s allTabs)) := by
  constructor
  · intro hle
    rw [hE]
    unfold suspendMemoryHeavyTabs
    rw [if_neg (by simp [hen]), if_neg (by omega)]
  · intro hgt
    have hE' : E = ((sortByKey (lastAccessOf acc) (inactiveTabsOf acc now allTabs)).take
        (tabsToSuspendOf s allTabs)).filterMap discardEffect := by
      rw [hE]
      unfold suspendMemoryHeavyTabs
      rw [if_neg (by simp [hen]), if_pos hgt]
    have hsel : ∀ t ∈ (sortByKey (lastAccessOf acc) (inactiveTabsOf acc now allTabs)).take
        (tabsToSuspendOf s allTabs), t ∈ inactiveTabsOf acc now allTabs :=
      fun t ht => mem_sortByKey.mp (List.take_subset _ _ ht)
    refine ⟨?_, ?_, ?_, ?_⟩
    · intro e he
      rw [hE', List.mem_filterMap] at he
      obtain ⟨t, _, hg⟩ := he
      rw [discardEffect] at hg
      by_cases hc : (jsTruthyNat t.id && !t.discarded) = true
      · rw [if_pos hc] at hg
        exact ⟨t.id.getD 0, by simpa using hg.symm⟩
      · rw [if_neg hc] at hg
        cases hg
    · intro i hi
      rw [hE', List.mem_filterMap] at hi
      obtain ⟨t, ht, hg⟩ := hi
      rw [discardEffect] at hg
      by_cases hc : (jsTruthyNat t.id && !t.discarded) = true
      · rw [if_pos hc] at hg
        simp only [Bool.and_eq_true, Bool.not_eq_true'] at hc
        obtain ⟨j, hj, hj0⟩ := jsTruthyNat_iff.mp hc.1
        refine ⟨t, hsel t ht, ?_, hc.2⟩
        have : t.id.getD 0 = i := by simpa using hg
        rw [hj] at this ⊢
        simpa using this
      · rw [if_neg hc] at hg
        cases hg
    · exact sortByKey_take_le_drop (lastAccessOf acc) (inactiveTabsOf acc now allTabs)
        (tabsToSuspendOf s allTabs)
    · intro hnd hn
      rw [hE', length_filterMap_of_isSome]
      · rw [List.length_take, length_sortByKey]
        exact min_eq_left hn
      · intro t ht
        have hidle := hsel t ht
        rw [inactiveTabsOf, List.mem_filter] at hidle
        have hid : jsTruthyNat t.id = true := by
          have := hidle.2
          rw [idleFilter, Bool.and_eq_true] at this
          exact this.1
        rw [discardEffect, if_pos (by simp [hid, hnd t ht])]
        rfl

/-- Concrete fixture for the memory policy: threshold 500MB settings. -/
def memFixtureSettings : Settings :=
  { autoArchiveEnabled := false, autoArchiveMinutes := 30, duplicateDetection := true
    memorySaverEnabled := true, memorySaverThresholdMB := 500
    dailyCleanupEnabled := false, tabLimitEnabled := false, tabLimitCount := 50 }

/-- Concrete fixture: access times making tabs 1-4 idle for more than 15
minutes at time 10000000 and the rest freshly accessed. -/
def memFixtureAcc : Nat → Option Nat := fun i =>
  if i = 1 then some 0 else if i = 2 then some 100 else
  if i = 3 then some 200 else if i = 4 then some 300 else some 10000000

/-- Concrete fixture: twelve non-active, non-pinned tabs with ids 1..12. -/
def memFixtureTabs : List Tab :=
  List.range 12 |>.map (fun k =>
    { id := some (k + 1), url := some (str "https://t.test/"), title := none
      favIconUrl := none, pinned := false, active := false, discarded := false })

/-- Witness for C7: the specification's example — threshold 500MB, 12
non-active non-pinned tabs (estimate 600MB), 4 of them idle more than 15
minutes: exactly the 2 oldest-access idle tabs (ids 1 and 2) are suspended. -/
theorem suspendMemoryHeavyTabs_witness :
    suspendMemoryHeavyTabs memFixtureSettings memFixtureAcc 10000000 memFixtureTabs
      = [Effect.discardTab 1, Effect.discardTab 2]
    ∧ (suspendMemoryHeavyTabs memFixtureSettings memFixtureAcc 10000000 memFixtureTabs).length
      = 2 := by
  refine ⟨by decide, ?_⟩
  have h := (suspendMemoryHeavyTabs_spec memFixtureSettings memFixtureAcc 10000000
    memFixtureTabs
    (suspendMemoryHeavyTabs memFixtureSettings memFixtureAcc 10000000 memFixtureTabs)
    rfl (by decide)).2 (by decide)
  exact h.2.2.2 (by decide) (by decide)

/-- A saved tab group nested in a workspace (src/types/index.ts:6-15); the
color is carried as its string name. -/
structure TabGroup where
  id : Str
  name : Str
  color : Str
  collapsed : Bool
  tabs : List Nat
  createdAt : Nat
  updatedAt : Nat
  icon : Option Str
deriving DecidableEq

/-- Model of `Workspace` (src/types/index.ts:17-26). -/
structure Workspace where
  id : Str
  name : Str
  description : Option Str
  groups : List TabGroup
  tabs : List Tab
  createdAt : Nat
  updatedAt : Nat
deriving DecidableEq

/-- Shallow embedding of `saveOrUpdateWorkspaceByName`
(src/utils/storage.ts:49-65): `findIndex` by name then in-place update
preserving the original `id` and `createdAt`, or `push` when no name
matches. Replacing the first name match and keeping the rest is exactly
`workspaces[index] = ...` at the `findIndex` result. -/
def saveOrUpdateWorkspaceByName : List Workspace → Workspace → List Workspace
  | [], w => [w]
  | x :: xs, w =>
    if x.name = w.name then { w with id := x.id, createdAt := x.createdAt } :: xs
    else x :: saveOrUpdateWorkspaceByName xs w

theorem saveOrUpdateWorkspaceByName_of_fresh {l : List Workspace} {w : Workspace}
    (h : ∀ x ∈ l, x.name ≠ w.name) : saveOrUpdateWorkspaceByName l w = l ++ [w] := by
  induction l with
  | nil => rfl
  | cons x xs ih =>
    rw [saveOrUpdateWorkspaceByName, if_neg (h x (List.mem_cons_self x xs)),
      ih (fun y hy => h y (List.mem_cons_of_mem x hy))]
    rfl

theorem name_mem_saveOrUpdateWorkspaceByName {l : List Workspace} {w : Workspace} {n : Str}
    (h : n ∈ (saveOrUpdateWorkspaceByName l w).map Workspace.name) :
    n ∈ l.map Workspace.name ∨ n = w.name := by
  induction l with
  | nil =>
    rw [saveOrUpdateWorkspaceByName] at h
    simp only [List.map_cons, List.map_nil, List.mem_singleton] at h
    exact Or.inr h
  | cons x xs ih =>
    by_cases hx : x.name = w.name
    · rw [saveOrUpdateWorkspaceByName, if_pos hx, List.map_cons] at h
      rcases List.mem_cons.mp h with h' | h'
      · exact Or.inr h'
      · exact Or.inl (by rw [List.map_cons]; exact List.mem_cons_of_mem _ h')
    · rw [saveOrUpdateWorkspaceByName, if_neg hx, List.map_cons] at h
      rcases List.mem_cons.mp h with h' | h'
      · exact Or.inl (by rw [List.map_cons]; exact h' ▸ List.mem_cons_self _ _)
      · rcases ih h' with h'' | h''
        · exact Or.inl (by rw [List.map_cons]; exact List.mem_cons_of_mem _ h'')
        · exact Or.inr h''

theorem nodup_saveOrUpdateWorkspaceByName {l : List Workspace} {w : Workspace}
    (hnodup : (l.map Workspace.name).Nodup) :
    ((saveOrUpdateWorkspaceByName l w).map Workspace.name).Nodup := by
  induction l with
  | nil => simp [saveOrUpdateWorkspaceByName]
  | cons x xs ih =>
    rw [List.map_cons, List.nodup_cons] at hnodup
    obtain ⟨hx, hxs⟩ := hnodup
    by_cases hxn : x.name = w.name
    · rw [saveOrUpdateWorkspaceByName, if_pos hxn, List.map_cons, List.nodup_cons]
      exact ⟨by simpa [hxn] using hx, hxs⟩
    · rw [saveOrUpdateWorkspaceByName, if_neg hxn, List.map_cons, List.nodup_cons]
      refine ⟨?_, ih hxs⟩
      intro hmem
      rcases name_mem_saveOrUpdateWorkspaceByName hmem with h' | h'
      · exact hx h'
      · exact hxn h'

theorem countP_saveOrUpdateWorkspaceByName {l : List Workspace} {w : Workspace}
    (hnodup : (l.map Workspace.name).Nodup) :
    (saveOrUpdateWorkspaceByName l w).countP (fun x => decide (x.name = w.name)) = 1 := by
  induction l with
  | nil => simp [saveOrUpdateWorkspaceByName, List.countP_cons]
  | cons x xs ih =>
    rw [List.map_cons, List.nodup_cons] at hnodup
    obtain ⟨hx, hxs⟩ := hnodup
    by_cases hxn : x.name = w.name
    · rw [saveOrUpdateWorkspaceByName, if_pos hxn, List.countP_cons]
      have hzero : xs.countP (fun x => decide (x.name = w.name)) = 0 := by
        rw [List.countP_eq_zero]
        intro y hy
        simp only [decide_eq_true_eq]
        intro hyn
        apply hx
        have hm : y.name ∈ xs.map Workspace.name := List.mem_map_of_mem Workspace.name hy
        rwa [hyn, ← hxn] at hm
      simp [hzero]
    · rw [saveOrUpdateWorkspaceByName, if_neg hxn, List.countP_cons]
      simp [hxn, ih hxs]

theorem map_noMatch_id {w : Workspace} {wr : Workspace} {xs : List Workspace}
    (h : ∀ y ∈ xs, y.name ≠ w.name) :
    xs.map (fun x => if x.name = w.name then wr else x) = xs := by
  induction xs with
  | nil => rfl
  | cons y ys ih =>
    rw [List.map_cons, if_neg (h y (List.mem_cons_self y ys)),
      ih (fun z hz => h z (List.mem_cons_of_mem y hz))]

theorem update_saveOrUpdateWorkspaceByName {l : List Workspace} {w : Workspace}
    (hnodup : (l.map Workspace.name).Nodup) :
    ∀ old ∈ l, old.name = w.name →
      saveOrUpdateWorkspaceByName l w
        = l.map (fun x => if x.name = w.name then
            { w with id := old.id, createdAt := old.createdAt } else x) := by
  induction l with
  | nil => intro old h; cases h
  | cons x xs ih =>
    rw [List.map_cons, List.nodup_cons] at hnodup
    obtain ⟨hx, hxs⟩ := hnodup
    intro old hold holdn
    by_cases hxn : x.name = w.name
    · obtain rfl : old = x := by
        rcases List.mem_cons.mp hold with h' | h'
        · exact h'
        · exfalso
          apply hx
          have hm : old.name ∈ xs.map Workspace.name := List.mem_map_of_mem Workspace.name h'
          rwa [holdn, ← hxn] at hm
      rw [saveOrUpdateWorkspaceByName, if_pos hxn, List.map_cons, if_pos hxn,
        map_noMatch_id (fun y hy hyn => hx (by
          have hm : y.name ∈ xs.map Workspace.name := List.mem_map_of_mem Workspace.name hy
          rwa [hyn, ← hxn] at hm))]
    · have hold' : old ∈ xs := by
        rcases List.mem_cons.mp hold with h' | h'
        · exact absurd (h' ▸ holdn) hxn
        · exact h'
      rw [saveOrUpdateWorkspaceByName, if_neg hxn, List.map_cons, if_neg hxn,
        ih hxs old hold' holdn]

theorem append_saveOrUpdateWorkspaceByName {l m : List Workspace} {w : Workspace}
    (h : ∀ x ∈ l, x.name ≠ w.name) :
    saveOrUpdateWorkspaceByName (l ++ m) w = l ++ saveOrUpdateWorkspaceByName m w := by
  induction l with
  | nil => rfl
  | cons x xs ih =>
    rw [List.cons_append, saveOrUpdateWorkspaceByName,
      if_neg (h x (List.mem_cons_self x xs)),
      ih (fun y hy => h y (List.mem_cons_of_mem x hy))]
    rfl

/-- C8: name-keyed upsert — starting from a list with pairwise-distinct names,
after a save there is exactly one workspace with the saved name and names stay
distinct; a name match is updated in place keeping the original `id` and
`createdAt` while taking every other field from the new value; a fresh name is
appended; and saving the same name twice ends with one entry carrying the
second save's fields and the first save's `id`/`createdAt`. -/
theorem saveOrUpdateWorkspaceByName_spec (l : List Workspace) (w : Workspace)
    (hnodup : (l.map Workspace.name).Nodup) :
    ((saveOrUpdateWorkspaceByName l w).map Workspace.name).Nodup
    ∧ (saveOrUpdateWorkspaceByName l w).countP (fun x => decide (x.name = w.name)) = 1
    ∧ (∀ old ∈ l, old.name = w.name →
        saveOrUpdateWorkspaceByName l w
          = l.map (fun x => if x.name = w.name then
              { w with id := old.id, createdAt := old.createdAt } else x))
    ∧ ((∀ x ∈ l, x.name ≠ w.name) → saveOrUpdateWorkspaceByName l w = l ++ [w])
    ∧ (∀ w2 : Workspace, w2.name = w.name → (∀ x ∈ l, x.name ≠ w.name) →
        saveOrUpdateWorkspaceByName (saveOrUpdateWorkspaceByName l w) w2
          = l ++ [{ w2 with id := w.id, createdAt := w.createdAt }]) := by
  refine ⟨nodup_saveOrUpdateWorkspaceByName hnodup,
    countP_saveOrUpdateWorkspaceByName hnodup,
    update_saveOrUpdateWorkspaceByName hnodup,
    saveOrUpdateWorkspaceByName_of_fresh, ?_⟩
  intro w2 hw2 hfresh
  rw [saveOrUpdateWorkspaceByName_of_fresh hfresh,
    append_saveOrUpdateWorkspaceByName (fun x hx => hw2 ▸ hfresh x hx),
    saveOrUpdateWorkspaceByName, if_pos hw2.symm]

/-- Concrete fixture: a stored workspace named "Work". -/
def wsWork : Workspace :=
  { id := str "ws_1", name := str "Work", description := none, groups := []
    tabs := [], createdAt := 10, updatedAt := 10 }

/-- Concrete fixture: a first save of a workspace named "News". -/
def wsNews1 : Workspace :=
  { id := str "ws_2", name := str "News", description := none, groups := []
    tabs := [{ id := some 4, url := some (str "https://n.test/"), title := none
               favIconUrl := none, pinned := false, active := false, discarded := false }]
    createdAt := 20, updatedAt := 20 }

/-- Concrete fixture: a second save of "News" with a different tab list. -/
def wsNews2 : Workspace :=
  { id := str "ws_3", name := str "News", description := none, groups := []
    tabs := [{ id := some 9, url := some (str "https://m.test/"), title := none
               favIconUrl := none, pinned := false, active := false, discarded := false }]
    createdAt := 30, updatedAt := 30 }

/-- Witness for C8: saving "News" twice with different tab lists leaves
exactly one "News" workspace, holding the second tab list and the first
save's `id` and `createdAt`. -/
theorem saveOrUpdateWorkspaceByName_witness :
    saveOrUpdateWorkspaceByName (saveOrUpdateWorkspaceByName [wsWork] wsNews1) wsNews2
      = [wsWork, { wsNews2 with id := wsNews1.id, createdAt := wsNews1.createdAt }]
    ∧ (saveOrUpdateWorkspaceByName (saveOrUpdateWorkspaceByName [wsWork] wsNews1) wsNews2).countP
        (fun x => decide (x.name = wsNews2.name)) = 1 := by
  constructor
  · exact (saveOrUpdateWorkspaceByName_spec [wsWork] wsNews1 (by decide)).2.2.2.2 wsNews2
      (by decide) (by decide)
  · exact countP_saveOrUpdateWorkspaceByName (l := saveOrUpdateWorkspaceByName [wsWork] wsNews1)
      (w := wsNews2) (nodup_saveOrUpdateWorkspaceByName (by decide))

/-- Shallow embedding of `autoArchiveInactiveTabs` (src/background.ts:398-415):
no-op when auto-archive is disabled; otherwise archive every tab with a
truthy id that is neither pinned nor active and whose time since last
recorded access exceeds the configured threshold in minutes. -/
def autoArchiveInactiveTabs (s : Settings) (acc ts : Nat → Option Nat) (now : Nat)
    (tabs : List Tab) : List Effect :=
  if !s.autoArchiveEnabled then []
  else tabs.flatMap (fun tab =>
    if !jsTruthyNat tab.id || tab.pinned || tab.active then []
    else if now - lastAccessOf acc tab > s.autoArchiveMinutes * 60 * 1000 then
      archiveTab ts now tab
    else [])

/-- Shallow embedding of `performDailyCleanup` (src/background.ts:591-608).
The function reads no settings at all: it unconditionally overwrites the
archived-tabs list with the entries younger than the fixed 30-day retention
window and resets the daily stats — two Persistent Store writes on every
invocation. The age comparison is over the integers, as JavaScript numbers
are signed. -/
def performDailyCleanup (now : Nat) (archived : List ArchivedRecord) : List Effect :=
  [.setArchivedTabs (archived.filter (fun r =>
      decide ((r.archivedAt : Int) > (now : Int) - 30 * 24 * 60 * 60 * 1000))),
   .resetDailyStats]

/-- C9 counterexample: `performDailyCleanup` never re-checks
`dailyCleanupEnabled` — it takes no settings input and issues its two
Persistent Store writes unconditionally, so invoking it while the flag is
false is not a no-op. -/
theorem performDailyCleanup_disabled_writes_cex :
    performDailyCleanup 10000000000000 []
      = [Effect.setArchivedTabs [], Effect.resetDailyStats]
    ∧ performDailyCleanup 10000000000000 [] ≠ [] := by
  exact ⟨rfl, by decide⟩

/-- C9 amended: auto-archive and memory-saver each re-check their enabled
flag and issue no effect when it is false; daily cleanup performs its
archive pruning and stats reset unconditionally, without consulting the
settings. -/
theorem scheduledPolicies_disabled_spec :
    (∀ (s : Settings) (acc ts : Nat → Option Nat) (now : Nat) (tabs : List Tab),
      s.autoArchiveEnabled = false → autoArchiveInactiveTabs s acc ts now tabs = [])
    ∧ (∀ (s : Settings) (acc : Nat → Option Nat) (now : Nat) (tabs : List Tab),
      s.memorySaverEnabled = false → suspendMemoryHeavyTabs s acc now tabs = [])
    ∧ (∀ (s : Settings), s.dailyCleanupEnabled = false →
      ∀ (now : Nat) (archived : List ArchivedRecord),
        performDailyCleanup now archived
          = [.setArchivedTabs (archived.filter (fun r =>
              decide ((r.archivedAt : Int) > (now : Int) - 30 * 24 * 60 * 60 * 1000))),
             .resetDailyStats]) := by
  refine ⟨?_, ?_, ?_⟩
  · intro s acc ts now tabs h
    rw [autoArchiveInactiveTabs, if_pos (by simp [h])]
  · intro s acc now tabs h
    rw [suspendMemoryHeavyTabs, if_pos (by simp [h])]
  · intro s _ now archived
    rfl

/-- Witness for the amended C9 at all-disabled settings. -/
theorem scheduledPolicies_disabled_witness :
    autoArchiveInactiveTabs
      { autoArchiveEnabled := false, autoArchiveMinutes := 30, duplicateDetection := true
        memorySaverEnabled := false, memorySaverThresholdMB := 500
        dailyCleanupEnabled := false, tabLimitEnabled := false, tabLimitCount := 50 }
      (fun _ => none) (fun _ => none) 10000000
      [{ id := some 1, url := some (str "https://a.test/"), title := none, favIconUrl := none
         pinned := false, active := false, discarded := false }] = []
    ∧ suspendMemoryHeavyTabs
      { autoArchiveEnabled := false, autoArchiveMinutes := 30, duplicateDetection := true
        memorySaverEnabled := false, memorySaverThresholdMB := 500
        dailyCleanupEnabled := false, tabLimitEnabled := false, tabLimitCount := 50 }
      (fun _ => none) 10000000 memFixtureTabs = []
    ∧ performDailyCleanup 10000000 [] = [Effect.setArchivedTabs [], Effect.resetDailyStats] := by
  refine ⟨?_, ?_, ?_⟩
  · exact scheduledPolicies_disabled_spec.1 _ _ _ _ _ rfl
  · exact scheduledPolicies_disabled_spec.2.1 _ _ _ _ rfl
  · exact (scheduledPolicies_disabled_spec.2.2
      { autoArchiveEnabled := false, autoArchiveMinutes := 30, duplicateDetection := true
        memorySaverEnabled := false, memorySaverThresholdMB := 500
        dailyCleanupEnabled := false, tabLimitEnabled := false, tabLimitCount := 50 }
      rfl 10000000 []).trans (by decide)

/-- A live tab group as returned by `chrome.tabGroups.query`. -/
structure TabGroupLive where
  id : Nat
  title : Option Str
deriving DecidableEq

/-- Shallow embedding of `addToGroup` (src/background.ts:542-551): query the
groups whose title equals the name and add the tab to the first one, or
create a new group with the tab and set its title. -/
def addToGroup (groups : List TabGroupLive) (tabId : Nat) (groupName : Str) : List Effect :=
  match groups.find? (fun g => decide (g.title = some groupName)) with
  | some g => [.groupAddExisting tabId g.id]
  | none => [.groupCreateTitled tabId groupName]

/-- The action types of `RuleAction` (src/types/index.ts:47-50). The
executor's switch handles only `group`, `close`, `archive` and `pin`. -/
inductive ActionType
  | group | close | archive | tag | pin | suspend
deriving DecidableEq

/-- Model of `RuleAction` (src/types/index.ts:47-50): the `value` is optional. -/
structure RuleAction where
  type : ActionType
  value : Option Str
deriving DecidableEq

/-- Shallow embedding of `executeActions` (src/background.ts:520-539): bail
out on a falsy tab id, then run the actions in order; the `group` arm uses
`action.value || 'Auto-grouped'` (absent and empty values fall back to the
literal default name). -/
def executeActions (groups : List TabGroupLive) (ts : Nat → Option Nat) (now : Nat)
    (tab : Tab) (actions : List RuleAction) : List Effect :=
  if !jsTruthyNat tab.id then []
  else actions.flatMap (fun a =>
    match a.type with
    | .group => addToGroup groups (tab.id.getD 0)
        (if jsTruthyStr a.value then a.value.getD [] else str "Auto-grouped")
    | .close => [.removeTab (tab.id.getD 0)]
    | .archive => archiveTab ts now tab
    | .pin => [.pinTab (tab.id.getD 0)]
    | _ => [])

/-- C10: a `group` action without a value uses the literal default name
'Auto-grouped': the tab joins the first existing group with that exact title
when one exists, and otherwise a new group is created around the tab and
titled 'Auto-grouped'. -/
theorem executeActions_group_default_spec (groups : List TabGroupLive)
    (ts : Nat → Option Nat) (now : Nat) (tab : Tab) (i : Nat)
    (hid : tab.id = some i) (hi : i ≠ 0) (a : RuleAction)
    (ha : a.type = .group) (hv : a.value = none) :
    executeActions groups ts now tab [a] = addToGroup groups i (str "Auto-grouped")
    ∧ (∀ g, groups.find? (fun g => decide (g.title = some (str "Auto-grouped"))) = some g →
        executeActions groups ts now tab [a] = [.groupAddExisting i g.id])
    ∧ (groups.find? (fun g => decide (g.title = some (str "Auto-grouped"))) = none →
        executeActions groups ts now tab [a] = [.groupCreateTitled i (str "Auto-grouped")]) := by
  have hmain : executeActions groups ts now tab [a] = addToGroup groups i (str "Auto-grouped") := by
    rw [executeActions, if_neg (by simp [jsTruthyNat, hid, hi])]
    simp [ha, hv, jsTruthyStr, hid]
  refine ⟨hmain, ?_, ?_⟩
  · intro g hg
    rw [hmain, addToGroup, hg]
  · intro hg
    rw [hmain, addToGroup, hg]

/-- Witness for C10: with an existing 'Auto-grouped' group (id 9) the tab is
added to it; with no such group a new titled group is created. -/
theorem executeActions_group_default_witness :
    executeActions [{ id := 5, title := some (str "Docs") },
        { id := 9, title := some (str "Auto-grouped") }]
      (fun _ => none) 0
      { id := some 3, url := some (str "https://a.test/"), title := none, favIconUrl := none
        pinned := false, active := false, discarded := false }
      [{ type := .group, value := none }]
      = [Effect.groupAddExisting 3 9]
    ∧ executeActions [{ id := 5, title := some (str "Docs") }]
      (fun _ => none) 0
      { id := some 3, url := some (str "https://a.test/"), title := none, favIconUrl := none
        pinned := false, active := false, discarded := false }
      [{ type := .group, value := none }]
      = [Effect.groupCreateTitled 3 (str "Auto-grouped")] := by
  constructor
  · exact (executeActions_group_default_spec
      [{ id := 5, title := some (str "Docs") }, { id := 9, title := some (str "Auto-grouped") }]
      (fun _ => none) 0
      { id := some 3, url := some (str "https://a.test/"), title := none, favIconUrl := none
        pinned := false, active := false, discarded := false }
      3 rfl (by decide) { type := .group, value := none } rfl rfl).2.1
      { id := 9, title := some (str "Auto-grouped") } (by decide)
  · exact (executeActions_group_default_spec
      [{ id := 5, title := some (str "Docs") }]
      (fun _ => none) 0
      { id := some 3, url := some (str "https://a.test/"), title := none, favIconUrl := none
        pinned := false, active := false, discarded := false }
      3 rfl (by decide) { type := .group, value := none } rfl rfl).2.2 (by decide)

end TabFlow
